import Mathlib

/-!
Verification of the Travis County building extractor
(src/scripts/extract_travis_buildings.py).

The script is shallowly embedded here:

* Python strings are Lean `String`s, and every Python string operation the
  script uses (strip, startswith, endswith, count, substring containment,
  slicing off the last character) is modelled explicitly on the underlying
  character list, mirroring Python semantics.
* JSON values produced by `json.loads` are modelled by the inductive type
  `JsonVal`; Python floats are modelled as exact rationals.
* `json.loads` itself is a Python library call, not code of this repository,
  so the extractor is parameterised by an abstract decoder
  `decode : String → Option JsonVal` (`none` models a raised
  `json.JSONDecodeError`).
* Exceptions are modelled with `Option`: a helper returning `none` models a
  raised exception, and the enclosing `try/except` turns `none` into the
  handler's result.
* The input file is modelled as the list of its lines (without terminators);
  `readline` at end of file returning the falsy empty string corresponds to
  the end of the list.
-/

/-! ## Python string primitives -/

/-- Python `s.count(c)` for a single-character needle. -/
def pyCount (s : String) (c : Char) : Nat := s.data.count c

/-- Python `s.startswith(p)`. -/
def pyStartsWith (s p : String) : Bool := p.data.isPrefixOf s.data

/-- Python `s.endswith(p)`. -/
def pyEndsWith (s p : String) : Bool := p.data.isSuffixOf s.data

/-- Occurrence of `pat` as a contiguous run inside `l`. -/
def listIsInfix : List Char → List Char → Bool
  | pat, [] => pat.isEmpty
  | pat, c :: rest => pat.isPrefixOf (c :: rest) || listIsInfix pat rest

/-- Python `sub in s` for strings (substring containment). -/
def pyContains (s sub : String) : Bool := listIsInfix sub.data s.data

/-- Python `s.strip()`: remove leading and trailing whitespace. -/
def pyStrip (s : String) : String :=
  String.mk (((s.data.dropWhile Char.isWhitespace).reverse.dropWhile Char.isWhitespace).reverse)

/-- Python `s[:-1]`: drop the last character. -/
def pyDropLast (s : String) : String := String.mk s.data.dropLast

/-- The opening-brace character, U+007B. -/
def openBraceChar : Char := Char.ofNat 123

/-- The closing-brace character, U+007D. -/
def closeBraceChar : Char := Char.ofNat 125

/-! ## JSON values -/

/-- Result of a successful `json.loads`: JSON values, with numbers modelled
as exact rationals. -/
inductive JsonVal where
  | null : JsonVal
  | bool (b : Bool) : JsonVal
  | num (q : ℚ) : JsonVal
  | str (s : String) : JsonVal
  | arr (elems : List JsonVal) : JsonVal
  | obj (fields : List (String × JsonVal)) : JsonVal

/-- Python dict lookup `d[k]` on a decoded JSON object, returning `none` for
a `KeyError`. Decoded dicts have unique keys, so first-match lookup agrees
with Python. -/
def jlookup (k : String) : List (String × JsonVal) → Option JsonVal
  | [] => none
  | (k2, v) :: rest => if k2 = k then some v else jlookup k rest

/-- Python `key in xs` for a decoded JSON list: membership compares the string
`key` against each element with `==`, which is true only for an equal string
element. -/
def jarrHasStr (key : String) : List JsonVal → Bool
  | [] => false
  | .str s :: rest => s = key || jarrHasStr key rest
  | _ :: rest => jarrHasStr key rest

/-- Python truthiness of a decoded JSON value (`if not v`). -/
def jfalsy : JsonVal → Bool
  | .null => true
  | .bool b => !b
  | .num q => q = 0
  | .str s => s = ""
  | .arr xs => xs.isEmpty
  | .obj kvs => kvs.isEmpty

/-- Evaluate `f` on every element, failing (raising) if any element fails,
as the generator inside Python's `sum(...)` would. -/
def mapOpt {α β : Type} (f : α → Option β) : List α → Option (List β)
  | [] => some []
  | x :: xs =>
    match f x, mapOpt f xs with
    | some y, some ys => some (y :: ys)
    | _, _ => none

/-! ## Geometry filter: is_in_travis_county -/

/-- Bounding box with four scalar bounds, as in the source's TRAVIS_BOUNDS
dict. -/
structure BBox where
  north : ℚ
  south : ℚ
  east : ℚ
  west : ℚ

/-- Fixed Travis County bounding box from the source. -/
def TRAVIS_BOUNDS : BBox :=
  { north := 30.8, south := 30.0, east := -97.4, west := -98.2 }

/-- Python `v[0]` on a decoded JSON value, `none` modelling a raised
IndexError/KeyError/TypeError. Python string indexing would return a
one-character string here, which is non-numeric and makes the later `sum`
raise a TypeError; both failure routes are caught by the same handler, so
both are modelled as a raise. -/
def subscript0 : JsonVal → Option JsonVal
  | .arr ys => ys[0]?
  | _ => none

/-- Python `coord[i]` coerced to a number, as consumed by
`sum(coord[i] for coord in coordinates)`; `none` models the TypeError raised
by `sum` on a non-numeric element (Python `bool` is an `int` subclass, so
booleans do sum). -/
def coordComp (i : Nat) : JsonVal → Option ℚ
  | .arr ys =>
    match ys[i]? with
    | some (.num q) => some q
    | some (.bool b) => some (if b then 1 else 0)
    | _ => none
  | _ => none

/-- Containment test of the source: bounds are inclusive on all four sides. -/
def inTravisBounds (lng lat : ℚ) : Bool :=
  decide (TRAVIS_BOUNDS.south ≤ lat ∧ lat ≤ TRAVIS_BOUNDS.north ∧
          TRAVIS_BOUNDS.west ≤ lng ∧ lng ≤ TRAVIS_BOUNDS.east)

/-- Lines 39-47 of the source: the emptiness test on the collected point
list, the two coordinate averages, and the bounds check. `none` models an
exception raised while summing (e.g. a non-numeric coordinate). -/
def centroidCheck (pts : List JsonVal) : Option Bool :=
  if pts.isEmpty then some false
  else
    match mapOpt (coordComp 0) pts, mapOpt (coordComp 1) pts with
    | some lngs, some lats =>
      some (inTravisBounds (lngs.sum / (pts.length : ℚ)) (lats.sum / (pts.length : ℚ)))
    | _, _ => none

/-- Python `polygon[0]` as consumed by `coordinates.extend(...)`: only a list
yields elements to extend with. A string here would extend with its
one-character strings, which are non-numeric and make the later `sum` raise;
every non-list route ends in the same caught exception with the same
observable result, so it is modelled as a raise. -/
def outerRingList (p : JsonVal) : Option (List JsonVal) :=
  match subscript0 p with
  | some (.arr zs) => some zs
  | _ => none

/-- Polygon branch of the source (line 30 plus the shared tail): take
`coordinates[0]`, test truthiness, then average. -/
def polygonBranch (coords : JsonVal) : Option Bool :=
  match subscript0 coords with
  | none => none
  | some c0 =>
    match c0 with
    | .arr pts => centroidCheck pts
    | other => if jfalsy other then some false else none

/-- MultiPolygon branch of the source (lines 32-34 plus the shared tail):
concatenate `polygon[0]` over all polygons, then average. Iterating a
non-list `coordinates` in Python either raises directly or fills the point
list with non-numeric values that make `sum` raise; all such routes are
caught and indistinguishable from a raise here. -/
def multiPolygonBranch (coords : JsonVal) : Option Bool :=
  match coords with
  | .arr polys =>
    match mapOpt outerRingList polys with
    | some rings => centroidCheck rings.flatten
    | none => none
  | _ => none

/-- Body of `is_in_travis_county` inside the `try` block, lines 23-47 of the
source; `none` models a raised exception reaching the `except` handler.
Non-dict shapes follow Python's `in` operator: membership in a list or
substring containment in a string does not raise, but the subsequent
subscript with a string key does. -/
def isInTravisBody (feature : JsonVal) : Option Bool :=
  match feature with
  | .obj kvs =>
    match jlookup "geometry" kvs with
    | none => some false
    | some geometry =>
      match geometry with
      | .obj gkvs =>
        match jlookup "coordinates" gkvs with
        | none => some false
        | some coords =>
          match jlookup "type" gkvs with
          | none => none
          | some ty =>
            match ty with
            | .str tys =>
              if tys = "Polygon" then polygonBranch coords
              else if tys = "MultiPolygon" then multiPolygonBranch coords
              else some false
            | _ => some false
      | .arr gxs => if jarrHasStr "coordinates" gxs then none else some false
      | .str gs => if pyContains gs "coordinates" then none else some false
      | _ => none
  | .arr xs => if jarrHasStr "geometry" xs then none else some false
  | .str s => if pyContains s "geometry" then none else some false
  | _ => none

/-- Function `is_in_travis_county` of the source: the `except` handler turns
any raised exception into `False`. -/
def is_in_travis_county (feature : JsonVal) : Bool :=
  (isInTravisBody feature).getD false

/-! ## Streaming extractor: process_texas_geojson -/

/-- Substring the script looks for to locate the features array. -/
def featuresKey : String := "\"features\""

/-- Test `'"features"' in line`, used both by the seek loop (on the raw line)
and by the per-line loop (on the stripped line). -/
def hasFeaturesKey (l : String) : Bool := pyContains l featuresKey

/-- Tag the first line of the file must start with. -/
def preambleTag : String := "\x7b\"type\":\"FeatureCollection\""

/-- Count of opening braces minus count of closing braces in a line
(line 99 / line 102 of the source). -/
def braceDelta (l : String) : Int :=
  (pyCount l openBraceChar : Int) - (pyCount l closeBraceChar : Int)

/-- Removal of one trailing comma before decoding (lines 108-109). -/
def stripTrailingComma (s : String) : String :=
  if pyEndsWith s "," then pyDropLast s else s

/-- Mutable state of the per-line loop of `process_texas_geojson`
(lines 81-83 and the counters of lines 60-62). -/
structure ScanState where
  in_features : Bool
  feature_buffer : String
  brace_count : Int
  travis_buildings : List JsonVal
  total_features : Nat
  found_count : Nat

/-- Lines 104-129 of the source: when the brace counter is zero and the
buffer is non-empty, rebind the buffer to its comma-stripped form (the
source mutates `feature_buffer` itself on lines 108-109, before calling
`json.loads`), decode, count, filter, and either keep scanning or break at
the cap. The boolean result signals a `break`. On a decode failure the
`continue` skips the buffer reset, so the comma-stripped text stays in the
buffer. -/
def completionStep (decode : String → Option JsonVal) (max_buildings : Nat)
    (s1 : ScanState) : ScanState × Bool :=
  if s1.brace_count = 0 ∧ s1.feature_buffer ≠ "" then
    let s1s := { s1 with feature_buffer := stripTrailingComma s1.feature_buffer }
    match decode s1s.feature_buffer with
    | none => (s1s, false)
    | some feature =>
      let s2 := { s1s with total_features := s1s.total_features + 1 }
      if is_in_travis_county feature then
        let s3 := { s2 with travis_buildings := s2.travis_buildings ++ [feature],
                            found_count := s2.found_count + 1 }
        if max_buildings ≤ s3.found_count then (s3, true)
        else ({ s3 with feature_buffer := "" }, false)
      else ({ s2 with feature_buffer := "" }, false)
  else (s1, false)

/-- One iteration of the `for line in f` loop, lines 85-129 of the source.
The boolean result signals a `break`. -/
def stepLine (decode : String → Option JsonVal) (max_buildings : Nat)
    (s : ScanState) (rawLine : String) : ScanState × Bool :=
  let line := pyStrip rawLine
  if hasFeaturesKey line then ({ s with in_features := true }, false)
  else if s.in_features then
    if pyStartsWith line "[" then (s, false)
    else if pyStartsWith line "]" then (s, true)
    else if pyStartsWith line "\x7b" then
      completionStep decode max_buildings
        { s with feature_buffer := line, brace_count := braceDelta line }
    else
      completionStep decode max_buildings
        { s with feature_buffer := s.feature_buffer ++ line,
                 brace_count := s.brace_count + braceDelta line }
  else (s, false)

/-- The `for line in f` loop itself: fold `stepLine` over the remaining
lines, stopping at a `break`. -/
def scanLines (decode : String → Option JsonVal) (max_buildings : Nat) :
    ScanState → List String → ScanState
  | s, [] => s
  | s, l :: ls =>
    let r := stepLine decode max_buildings s l
    if r.2 then r.1 else scanLines decode max_buildings r.1 ls

/-- Loop state before the first iteration (lines 81-83, counters of 60-62). -/
def initScanState : ScanState :=
  { in_features := false, feature_buffer := "", brace_count := 0,
    travis_buildings := [], total_features := 0, found_count := 0 }

/-- Lines 73-78 of the source: `while line and '"features"' not in line:
line = f.readline()`, starting at the already-read first line, followed by
`if not line: error`. The result is the list of lines left for the `for`
loop; `none` is the missing-features-array error. -/
def seekFeatures : List String → Option (List String)
  | [] => none
  | l :: ls => if hasFeaturesKey l then some ls else seekFeatures ls

/-- Observable outcome of `process_texas_geojson`. The two error
constructors and `noOutput` correspond to the early `return`s of lines
68-70, 76-78 and 142-144: in each of those cases the function returns
before the output file is created, so no constructor of this type except
`success` carries an output document. -/
inductive ExtractResult where
  | formatErrorPreamble : ExtractResult
  | formatErrorNoFeatures : ExtractResult
  | noOutput (total_features : Nat) : ExtractResult
  | success (total_features found_count : Nat) (output : JsonVal) : ExtractResult

/-- Output document assembled on lines 147-150 of the source. -/
def outputGeojson (kept : List JsonVal) : JsonVal :=
  .obj [("type", .str "FeatureCollection"), ("features", .arr kept)]

/-- Function `process_texas_geojson` of the source over the input's lines:
preamble check (lines 67-70), seek to the features key (73-78), per-line
scan (81-129), and report/output assembly (142-155). -/
def process_texas_geojson (decode : String → Option JsonVal)
    (lines : List String) (max_buildings : Nat) : ExtractResult :=
  match lines with
  | [] => .formatErrorPreamble
  | first :: _ =>
    if pyStartsWith (pyStrip first) preambleTag then
      match seekFeatures lines with
      | none => .formatErrorNoFeatures
      | some rest =>
        let final := scanLines decode max_buildings initScanState rest
        if final.found_count = 0 then .noOutput final.total_features
        else .success final.total_features final.found_count
               (outputGeojson final.travis_buildings)
    else .formatErrorPreamble

/-! ## Step characterisation lemmas -/

theorem stepLine_featuresLine (decode : String → Option JsonVal) (m : Nat)
    (s : ScanState) (raw : String) (h : hasFeaturesKey (pyStrip raw) = true) :
    stepLine decode m s raw = ({ s with in_features := true }, false) := by
  simp [stepLine, h]

theorem stepLine_notInFeatures (decode : String → Option JsonVal) (m : Nat)
    (s : ScanState) (raw : String) (h1 : hasFeaturesKey (pyStrip raw) = false)
    (h2 : s.in_features = false) :
    stepLine decode m s raw = (s, false) := by
  simp [stepLine, h1, h2]

theorem stepLine_openBracket (decode : String → Option JsonVal) (m : Nat)
    (s : ScanState) (raw : String) (h1 : hasFeaturesKey (pyStrip raw) = false)
    (h2 : s.in_features = true)
    (h3 : pyStartsWith (pyStrip raw) "[" = true) :
    stepLine decode m s raw = (s, false) := by
  simp [stepLine, h1, h2, h3]

theorem stepLine_closeBracket (decode : String → Option JsonVal) (m : Nat)
    (s : ScanState) (raw : String) (h1 : hasFeaturesKey (pyStrip raw) = false)
    (h2 : s.in_features = true)
    (h3 : pyStartsWith (pyStrip raw) "[" = false)
    (h4 : pyStartsWith (pyStrip raw) "]" = true) :
    stepLine decode m s raw = (s, true) := by
  simp [stepLine, h1, h2, h3, h4]

theorem stepLine_newBuffer (decode : String → Option JsonVal) (m : Nat)
    (s : ScanState) (raw : String) (h1 : hasFeaturesKey (pyStrip raw) = false)
    (h2 : s.in_features = true)
    (h3 : pyStartsWith (pyStrip raw) "[" = false)
    (h4 : pyStartsWith (pyStrip raw) "]" = false)
    (h5 : pyStartsWith (pyStrip raw) "\x7b" = true) :
    stepLine decode m s raw =
      completionStep decode m
        { s with feature_buffer := pyStrip raw,
                 brace_count := braceDelta (pyStrip raw) } := by
  simp [stepLine, h1, h2, h3, h4, h5]

theorem stepLine_appendBuffer (decode : String → Option JsonVal) (m : Nat)
    (s : ScanState) (raw : String) (h1 : hasFeaturesKey (pyStrip raw) = false)
    (h2 : s.in_features = true)
    (h3 : pyStartsWith (pyStrip raw) "[" = false)
    (h4 : pyStartsWith (pyStrip raw) "]" = false)
    (h5 : pyStartsWith (pyStrip raw) "\x7b" = false) :
    stepLine decode m s raw =
      completionStep decode m
        { s with feature_buffer := s.feature_buffer ++ pyStrip raw,
                 brace_count := s.brace_count + braceDelta (pyStrip raw) } := by
  simp [stepLine, h1, h2, h3, h4, h5]

theorem completionStep_noFire (decode : String → Option JsonVal) (m : Nat)
    (s1 : ScanState) (h : ¬(s1.brace_count = 0 ∧ s1.feature_buffer ≠ "")) :
    completionStep decode m s1 = (s1, false) := by
  simp only [completionStep]
  rw [if_neg h]

theorem completionStep_decodeFail (decode : String → Option JsonVal) (m : Nat)
    (s1 : ScanState) (h0 : s1.brace_count = 0) (h1 : s1.feature_buffer ≠ "")
    (h2 : decode (stripTrailingComma s1.feature_buffer) = none) :
    completionStep decode m s1 =
      ({ s1 with feature_buffer := stripTrailingComma s1.feature_buffer }, false) := by
  simp only [completionStep]
  rw [if_pos (And.intro h0 h1)]
  simp [h2]

theorem completionStep_reject (decode : String → Option JsonVal) (m : Nat)
    (s1 : ScanState) (v : JsonVal) (h0 : s1.brace_count = 0)
    (h1 : s1.feature_buffer ≠ "")
    (h2 : decode (stripTrailingComma s1.feature_buffer) = some v)
    (h3 : is_in_travis_county v = false) :
    completionStep decode m s1 =
      ({ s1 with total_features := s1.total_features + 1,
                 feature_buffer := "" }, false) := by
  simp only [completionStep]
  rw [if_pos (And.intro h0 h1)]
  simp [h2, h3]

theorem completionStep_keepStop (decode : String → Option JsonVal) (m : Nat)
    (s1 : ScanState) (v : JsonVal) (h0 : s1.brace_count = 0)
    (h1 : s1.feature_buffer ≠ "")
    (h2 : decode (stripTrailingComma s1.feature_buffer) = some v)
    (h3 : is_in_travis_county v = true)
    (h4 : m ≤ s1.found_count + 1) :
    completionStep decode m s1 =
      ({ s1 with feature_buffer := stripTrailingComma s1.feature_buffer,
                 total_features := s1.total_features + 1,
                 travis_buildings := s1.travis_buildings ++ [v],
                 found_count := s1.found_count + 1 }, true) := by
  simp only [completionStep]
  rw [if_pos (And.intro h0 h1)]
  simp [h2, h3, h4]

theorem completionStep_keepGo (decode : String → Option JsonVal) (m : Nat)
    (s1 : ScanState) (v : JsonVal) (h0 : s1.brace_count = 0)
    (h1 : s1.feature_buffer ≠ "")
    (h2 : decode (stripTrailingComma s1.feature_buffer) = some v)
    (h3 : is_in_travis_county v = true)
    (h4 : s1.found_count + 1 < m) :
    completionStep decode m s1 =
      ({ s1 with total_features := s1.total_features + 1,
                 travis_buildings := s1.travis_buildings ++ [v],
                 found_count := s1.found_count + 1,
                 feature_buffer := "" }, false) := by
  simp only [completionStep]
  rw [if_pos (And.intro h0 h1)]
  simp [h2, h3, Nat.not_le.mpr h4]

theorem scanLines_stop (decode : String → Option JsonVal) (m : Nat)
    (s : ScanState) (l : String) (ls : List String)
    (h : (stepLine decode m s l).2 = true) :
    scanLines decode m s (l :: ls) = (stepLine decode m s l).1 := by
  simp [scanLines, h]

theorem scanLines_go (decode : String → Option JsonVal) (m : Nat)
    (s : ScanState) (l : String) (ls : List String)
    (h : (stepLine decode m s l).2 = false) :
    scanLines decode m s (l :: ls) = scanLines decode m (stepLine decode m s l).1 ls := by
  simp [scanLines, h]

/-! ## Well-formed feature lines and the scan over them -/

/-- Stripped form of a line that carries one complete feature object
decoding to `v`: it does not contain the features key, starts with an
opening brace (hence with neither bracket), is brace-balanced and
non-empty, and decodes successfully after comma-stripping. -/
def goodLine (decode : String → Option JsonVal) (l : String) (v : JsonVal) : Prop :=
  hasFeaturesKey (pyStrip l) = false ∧
  pyStartsWith (pyStrip l) "[" = false ∧
  pyStartsWith (pyStrip l) "]" = false ∧
  pyStartsWith (pyStrip l) "\x7b" = true ∧
  braceDelta (pyStrip l) = 0 ∧
  pyStrip l ≠ "" ∧
  decode (stripTrailingComma (pyStrip l)) = some v

/-- Line closing the features array. -/
def closeBracketLine : String := "]"

theorem stepLine_goodLine (decode : String → Option JsonVal) (m : Nat)
    (s : ScanState) (l : String) (v : JsonVal) (hg : goodLine decode l v)
    (hin : s.in_features = true) :
    stepLine decode m s l =
      completionStep decode m
        { s with feature_buffer := pyStrip l, brace_count := braceDelta (pyStrip l) } :=
  stepLine_newBuffer decode m s l hg.1 hin hg.2.1 hg.2.2.1 hg.2.2.2.1

theorem scanLines_goodRun (decode : String → Option JsonVal) (m : Nat)
    (fts : List String) (vals : List JsonVal)
    (hfv : List.Forall₂ (goodLine decode) fts vals) :
    ∀ (rest : List String) (s : ScanState), s.in_features = true → s.found_count < m →
      (scanLines decode m s (fts ++ closeBracketLine :: rest)).travis_buildings
        = s.travis_buildings ++
            (vals.filter is_in_travis_county).take (m - s.found_count) ∧
      (scanLines decode m s (fts ++ closeBracketLine :: rest)).found_count
        = s.found_count + min (m - s.found_count) (vals.filter is_in_travis_county).length := by
  induction hfv with
  | nil =>
    intro rest s hin hf
    have heq := stepLine_closeBracket decode m s closeBracketLine (by decide) hin
      (by decide) (by decide)
    rw [List.nil_append, scanLines_stop decode m s closeBracketLine rest (by rw [heq]), heq]
    simp
  | @cons l v fts' vals' hgd hrest ih =>
    intro rest s hin hf
    obtain ⟨hg1, hg3, hg4, hg5, hgd0, hgne, hgdec⟩ := hgd
    have hstep := stepLine_newBuffer decode m s l hg1 hin hg3 hg4 hg5
    rw [List.cons_append]
    by_cases hv : is_in_travis_county v = true
    · by_cases hcap : m ≤ s.found_count + 1
      · have hcomp := completionStep_keepStop decode m { s with feature_buffer := pyStrip l, brace_count := braceDelta (pyStrip l) } v hgd0 hgne hgdec hv hcap
        have hstepv := hstep.trans hcomp
        rw [scanLines_stop decode m s l _ (by rw [hstepv]), hstepv]
        have hm1 : m - s.found_count = 1 := by omega
        constructor
        · simp [hm1, List.filter_cons, hv]
        · simp only [hm1, List.filter_cons, hv, if_pos, List.length_cons]
          simp [Nat.succ_min_succ]
      · have hflt : s.found_count + 1 < m := by omega
        have hcomp := completionStep_keepGo decode m { s with feature_buffer := pyStrip l, brace_count := braceDelta (pyStrip l) } v hgd0 hgne hgdec hv hflt
        have hstepv := hstep.trans hcomp
        rw [scanLines_go decode m s l _ (by rw [hstepv]), hstepv]
        have hih := ih rest { s with feature_buffer := "", brace_count := braceDelta (pyStrip l), total_features := s.total_features + 1, travis_buildings := s.travis_buildings ++ [v], found_count := s.found_count + 1 } hin hflt
        obtain ⟨k, hk⟩ : ∃ k, m - s.found_count = k + 1 := ⟨m - s.found_count - 1, by omega⟩
        have hk2 : m - (s.found_count + 1) = k := by omega
        constructor
        · rw [hih.1]
          simp only [hk2, hk, List.filter_cons, if_pos hv, List.take_succ_cons,
            List.append_assoc, List.singleton_append]
        · rw [hih.2]
          simp only [hk2, hk, List.filter_cons, if_pos hv, List.length_cons,
            Nat.succ_min_succ]
          omega
    · have hvf : is_in_travis_county v = false := by
        cases hx : is_in_travis_county v
        · rfl
        · exact absurd hx hv
      have hcomp := completionStep_reject decode m { s with feature_buffer := pyStrip l, brace_count := braceDelta (pyStrip l) } v hgd0 hgne hgdec hvf
      have hstepv := hstep.trans hcomp
      rw [scanLines_go decode m s l _ (by rw [hstepv]), hstepv]
      have hih := ih rest { s with feature_buffer := "", brace_count := braceDelta (pyStrip l), total_features := s.total_features + 1 } hin hf
      constructor
      · rw [hih.1]
        simp only [List.filter_cons, hvf, Bool.false_eq_true, if_neg, ite_false]
      · rw [hih.2]
        simp only [List.filter_cons, hvf, Bool.false_eq_true, if_neg, ite_false]

/-! ## Canonical input layouts -/

/-- Header line of a FeatureCollection file in the documented layout. -/
def preambleLine : String := "\x7b\"type\":\"FeatureCollection\","

/-- Line holding the features key and opening the array, as the documented
layout spreads the document over lines. The seek loop stops at (and
consumes) this line. -/
def featuresSeekLine : String := "\"features\": ["

/-- An extra later line containing the features key; only after such a line
does the loop of the source set `in_features` and start scanning. -/
def featuresEngageLine : String := "\"features\""

/-- Line holding only the array opening bracket. -/
def openBracketLine : String := "["

/-- Line closing the whole document object. -/
def closeBraceLine : String := "\x7d"

/-- Input in the documented multi-line layout: header with the collection
tag, the features line, an opening bracket line, one feature object per
line, a closing bracket line, and the closing brace. The features key
occurs exactly once, on the line the seek loop consumes. -/
def docLayoutInput (fts : List String) : List String :=
  preambleLine :: featuresSeekLine :: openBracketLine ::
    (fts ++ closeBracketLine :: [closeBraceLine])

/-- Like `docLayoutInput`, but with a second line containing the features
key after the one the seek loop consumes; the scan of the source engages
only on inputs of this kind. -/
def engagedLayoutInput (fts : List String) : List String :=
  preambleLine :: featuresSeekLine :: featuresEngageLine :: openBracketLine ::
    (fts ++ closeBracketLine :: [closeBraceLine])

/-- Loop state right after a features-key line has set `in_features`. -/
def engagedState : ScanState := { initScanState with in_features := true }

theorem process_engagedLayout (decode : String → Option JsonVal) (m : Nat)
    (fts : List String) (vals : List JsonVal) (hm : 0 < m)
    (hfv : List.Forall₂ (goodLine decode) fts vals) :
    ((vals.filter is_in_travis_county).take m = [] →
      ∃ t, process_texas_geojson decode (engagedLayoutInput fts) m =
        ExtractResult.noOutput t) ∧
    ((vals.filter is_in_travis_county).take m ≠ [] →
      ∃ t, process_texas_geojson decode (engagedLayoutInput fts) m =
        ExtractResult.success t ((vals.filter is_in_travis_county).take m).length
          (outputGeojson ((vals.filter is_in_travis_county).take m))) := by
  have e0 : pyStartsWith (pyStrip preambleLine) preambleTag = true := by decide
  have e1 : hasFeaturesKey preambleLine = false := by decide
  have e2 : hasFeaturesKey featuresSeekLine = true := by decide
  have e3 : hasFeaturesKey (pyStrip featuresEngageLine) = true := by decide
  have e4 : hasFeaturesKey (pyStrip openBracketLine) = false := by decide
  have e5 : pyStartsWith (pyStrip openBracketLine) "[" = true := by decide
  have hs1 : stepLine decode m initScanState featuresEngageLine = (engagedState, false) :=
    stepLine_featuresLine decode m initScanState featuresEngageLine e3
  have hs2 : stepLine decode m engagedState openBracketLine = (engagedState, false) :=
    stepLine_openBracket decode m engagedState openBracketLine e4 rfl e5
  have hsc1 : scanLines decode m initScanState
      (featuresEngageLine :: openBracketLine :: (fts ++ closeBracketLine :: [closeBraceLine]))
      = scanLines decode m engagedState
          (openBracketLine :: (fts ++ closeBracketLine :: [closeBraceLine])) := by
    rw [scanLines_go decode m _ _ _ (by rw [hs1]), hs1]
  have hsc2 : scanLines decode m engagedState
      (openBracketLine :: (fts ++ closeBracketLine :: [closeBraceLine]))
      = scanLines decode m engagedState (fts ++ closeBracketLine :: [closeBraceLine]) := by
    rw [scanLines_go decode m _ _ _ (by rw [hs2]), hs2]
  have hscan := hsc1.trans hsc2
  have hseek : seekFeatures (preambleLine :: featuresSeekLine :: featuresEngageLine ::
      openBracketLine :: (fts ++ closeBracketLine :: [closeBraceLine]))
      = some (featuresEngageLine :: openBracketLine ::
          (fts ++ closeBracketLine :: [closeBraceLine])) := by
    simp [seekFeatures, e1, e2]
  have hrun := scanLines_goodRun decode m fts vals hfv [closeBraceLine] engagedState rfl hm
  have hkey : process_texas_geojson decode (engagedLayoutInput fts) m =
      (if (scanLines decode m engagedState
            (fts ++ closeBracketLine :: [closeBraceLine])).found_count = 0
       then ExtractResult.noOutput (scanLines decode m engagedState
              (fts ++ closeBracketLine :: [closeBraceLine])).total_features
       else ExtractResult.success
              (scanLines decode m engagedState
                (fts ++ closeBracketLine :: [closeBraceLine])).total_features
              (scanLines decode m engagedState
                (fts ++ closeBracketLine :: [closeBraceLine])).found_count
              (outputGeojson (scanLines decode m engagedState
                (fts ++ closeBracketLine :: [closeBraceLine])).travis_buildings)) := by
    simp only [engagedLayoutInput, process_texas_geojson, e0, if_true, hseek, hscan]
  have htr : (scanLines decode m engagedState
      (fts ++ closeBracketLine :: [closeBraceLine])).travis_buildings
      = (vals.filter is_in_travis_county).take m := by
    have := hrun.1
    simpa [engagedState, initScanState] using this
  have hfc : (scanLines decode m engagedState
      (fts ++ closeBracketLine :: [closeBraceLine])).found_count
      = min m (vals.filter is_in_travis_county).length := by
    have := hrun.2
    simpa [engagedState, initScanState] using this
  constructor
  · intro hempty
    have hlen : (vals.filter is_in_travis_county) = [] := by
      rcases List.take_eq_nil_iff.mp hempty with h | h
      · omega
      · exact h
    have hz : (scanLines decode m engagedState
        (fts ++ closeBracketLine :: [closeBraceLine])).found_count = 0 := by
      rw [hfc, hlen]
      simp
    refine ⟨(scanLines decode m engagedState
        (fts ++ closeBracketLine :: [closeBraceLine])).total_features, ?_⟩
    rw [hkey, if_pos hz]
  · intro hne
    have hlenpos : 0 < (vals.filter is_in_travis_county).length := by
      rcases Nat.eq_zero_or_pos (vals.filter is_in_travis_county).length with h | h
      · exact absurd (by simp [List.take_eq_nil_iff, List.length_eq_zero.mp h]) hne
      · exact h
    have hz : (scanLines decode m engagedState
        (fts ++ closeBracketLine :: [closeBraceLine])).found_count ≠ 0 := by
      rw [hfc]
      omega
    refine ⟨(scanLines decode m engagedState
        (fts ++ closeBracketLine :: [closeBraceLine])).total_features, ?_⟩
    rw [hkey, if_neg hz, htr, hfc, List.length_take]

/-! ## Cap invariant machinery -/

theorem stepLine_found_step (decode : String → Option JsonVal) (m : Nat)
    (s : ScanState) (raw : String) :
    ((stepLine decode m s raw).1.found_count = s.found_count ∨
     (stepLine decode m s raw).1.found_count = s.found_count + 1) ∧
    ((stepLine decode m s raw).2 = false →
      (stepLine decode m s raw).1.found_count = s.found_count ∨
      ((stepLine decode m s raw).1.found_count = s.found_count + 1 ∧
       (stepLine decode m s raw).1.found_count < m)) := by
  simp only [stepLine, completionStep]
  repeat' split
  all_goals simp_all

theorem stepLine_cap_stop (decode : String → Option JsonVal) (m : Nat)
    (s : ScanState) (raw : String) (hf : s.found_count < m)
    (hreach : m ≤ (stepLine decode m s raw).1.found_count) :
    (stepLine decode m s raw).2 = true := by
  by_contra hc
  have h2 : (stepLine decode m s raw).2 = false := by
    cases hx : (stepLine decode m s raw).2
    · rfl
    · exact absurd hx hc
  rcases (stepLine_found_step decode m s raw).2 h2 with h | h
  · omega
  · omega

theorem scanLines_found_le (decode : String → Option JsonVal) (m : Nat) :
    ∀ (ls : List String) (s : ScanState), s.found_count < m →
      (scanLines decode m s ls).found_count ≤ m := by
  intro ls
  induction ls with
  | nil =>
    intro s hf
    exact le_of_lt hf
  | cons l ls2 ih =>
    intro s hf
    cases hx : (stepLine decode m s l).2 with
    | false =>
      rw [scanLines_go decode m s l ls2 hx]
      rcases (stepLine_found_step decode m s l).2 hx with h | h
      · exact ih _ (by omega)
      · exact ih _ h.2
    | true =>
      rw [scanLines_stop decode m s l ls2 hx]
      rcases (stepLine_found_step decode m s l).1 with h | h
      · omega
      · omega

/-- Kept-feature count reported by an extraction outcome. -/
def found_count_of : ExtractResult → Nat
  | .success _ f _ => f
  | _ => 0

theorem process_found_le (decode : String → Option JsonVal)
    (lines : List String) (m : Nat) (hm : 0 < m) :
    found_count_of (process_texas_geojson decode lines m) ≤ m := by
  cases lines with
  | nil => simp [process_texas_geojson, found_count_of]
  | cons first rest =>
    simp only [process_texas_geojson]
    by_cases hp : pyStartsWith (pyStrip first) preambleTag = true
    · simp only [hp, if_true]
      cases hs : seekFeatures (first :: rest) with
      | none => simp [found_count_of]
      | some body =>
        simp only []
        by_cases hz : (scanLines decode m initScanState body).found_count = 0
        · simp [hz, found_count_of]
        · simp only [hz, if_neg, found_count_of]
          exact scanLines_found_le decode m body initScanState hm
    · simp [hp, found_count_of]

/-! ## Spec-side geometry: outer-ring point set and centroid -/

/-- Numeric JSON value as a rational. -/
def jnumQ : JsonVal → Option ℚ
  | .num q => some q
  | _ => none

/-- Point of the spec's data model: a pair of numbers, longitude at
position 0 and latitude at position 1 of a JSON array. -/
def specPoint : JsonVal → Option (ℚ × ℚ)
  | .arr ys =>
    (ys[0]?.bind jnumQ).bind fun x => (ys[1]?.bind jnumQ).map fun y => (x, y)
  | _ => none

/-- Outer ring of one constituent polygon of a MultiPolygon, following the
spec's words: `coordinates[i][0]` read as a list of points. -/
def specMultiOuter : JsonVal → Option (List (ℚ × ℚ))
  | .arr (JsonVal.arr r0 :: _) => mapOpt specPoint r0
  | _ => none

/-- Outer-ring point set for a given geometry type tag and coordinates
value, per the spec's algorithm description: for a Polygon
`coordinates[0]`, for a MultiPolygon the concatenation of
`coordinates[i][0]` over all `i`; `none` on any other shape. -/
def specOuterOfTyCoords (ty : String) (coords : JsonVal) : Option (List (ℚ × ℚ)) :=
  if ty = "Polygon" then
    match coords with
    | .arr (JsonVal.arr ring0 :: _) => mapOpt specPoint ring0
    | _ => none
  else if ty = "MultiPolygon" then
    match coords with
    | .arr polys => (mapOpt specMultiOuter polys).map List.flatten
    | _ => none
  else none

/-- Outer-ring point set of a geometry object: read the type tag and the
coordinates off the object and delegate. -/
def specOuterOfGeom (gkvs : List (String × JsonVal)) : Option (List (ℚ × ℚ)) :=
  match jlookup "type" gkvs with
  | some (.str ty) =>
    match jlookup "coordinates" gkvs with
    | some coords => specOuterOfTyCoords ty coords
    | none => none
  | _ => none

/-- Outer-ring point set of a feature per the spec's data model: a mapping
whose geometry is a mapping with a type tag and coordinates. -/
def specOuterPoints (feature : JsonVal) : Option (List (ℚ × ℚ)) :=
  match feature with
  | .obj kvs =>
    match jlookup "geometry" kvs with
    | some (.obj gkvs) => specOuterOfGeom gkvs
    | _ => none
  | _ => none

/-- Centroid per the spec's words: arithmetic mean of all outer-ring
longitudes and of all outer-ring latitudes, defined only when the point set
is non-empty. -/
def specCentroid (feature : JsonVal) : Option (ℚ × ℚ) :=
  match specOuterPoints feature with
  | some pts =>
    if pts = [] then none
    else some ((pts.map Prod.fst).sum / (pts.length : ℚ),
               (pts.map Prod.snd).sum / (pts.length : ℚ))
  | none => none

theorem mapOpt_length {α β : Type} (f : α → Option β) :
    ∀ (xs : List α) (ys : List β), mapOpt f xs = some ys → xs.length = ys.length := by
  intro xs
  induction xs with
  | nil =>
    intro ys h
    simp only [mapOpt, Option.some.injEq] at h
    simp [h.symm]
  | cons x xs2 ih =>
    intro ys h
    simp only [mapOpt] at h
    cases hx : f x with
    | none => rw [hx] at h; simp at h
    | some y =>
      rw [hx] at h
      cases hxs : mapOpt f xs2 with
      | none => rw [hxs] at h; simp at h
      | some ys2 =>
        rw [hxs] at h
        simp only [Option.some.injEq] at h
        rw [h.symm]
        simp [ih ys2 hxs]

theorem mapOpt_append {α β : Type} (f : α → Option β) :
    ∀ (as bs : List α) (ys zs : List β), mapOpt f as = some ys →
      mapOpt f bs = some zs → mapOpt f (as ++ bs) = some (ys ++ zs) := by
  intro as
  induction as with
  | nil =>
    intro bs ys zs ha hb
    simp only [mapOpt, Option.some.injEq] at ha
    simp [ha.symm, hb]
  | cons a as2 ih =>
    intro bs ys zs ha hb
    simp only [mapOpt] at ha
    cases hx : f a with
    | none => rw [hx] at ha; simp at ha
    | some y =>
      rw [hx] at ha
      cases hxs : mapOpt f as2 with
      | none => rw [hxs] at ha; simp at ha
      | some ys2 =>
        rw [hxs] at ha
        simp only [Option.some.injEq] at ha
        subst ha
        simp only [List.cons_append, mapOpt, List.append_eq, hx, ih bs ys2 zs hxs hb]

theorem jnumQ_eq (y : JsonVal) (q : ℚ) (h : jnumQ y = some q) : y = .num q := by
  cases y <;> simp_all [jnumQ]

theorem specPoint_comps (x : JsonVal) (p : ℚ × ℚ) (h : specPoint x = some p) :
    coordComp 0 x = some p.1 ∧ coordComp 1 x = some p.2 := by
  cases x with
  | null => simp [specPoint] at h
  | bool b => simp [specPoint] at h
  | num q => simp [specPoint] at h
  | str s => simp [specPoint] at h
  | obj kvs => simp [specPoint] at h
  | arr ys =>
    simp only [specPoint] at h
    cases h0 : ys[0]? with
    | none => rw [h0] at h; simp at h
    | some y0 =>
      rw [h0] at h
      simp only [Option.some_bind] at h
      cases hy0 : jnumQ y0 with
      | none => rw [hy0] at h; simp at h
      | some qx =>
        rw [hy0] at h
        simp only [Option.some_bind] at h
        cases h1 : ys[1]? with
        | none => rw [h1] at h; simp at h
        | some y1 =>
          rw [h1] at h
          simp only [Option.some_bind] at h
          cases hy1 : jnumQ y1 with
          | none => rw [hy1] at h; simp at h
          | some qy =>
            rw [hy1] at h
            simp only [Option.some_bind, Option.map_some', Option.some.injEq] at h
            have hp1 : qx = p.1 := by rw [← h]
            have hp2 : qy = p.2 := by rw [← h]
            have hy0e := jnumQ_eq y0 qx hy0
            have hy1e := jnumQ_eq y1 qy hy1
            constructor
            · simp [coordComp, h0, hy0e, hp1]
            · simp [coordComp, h1, hy1e, hp2]

theorem mapOpt_specPoint_comps :
    ∀ (ring : List JsonVal) (pts : List (ℚ × ℚ)), mapOpt specPoint ring = some pts →
      mapOpt (coordComp 0) ring = some (pts.map Prod.fst) ∧
      mapOpt (coordComp 1) ring = some (pts.map Prod.snd) := by
  intro ring
  induction ring with
  | nil =>
    intro pts h
    simp only [mapOpt, Option.some.injEq] at h
    subst h
    simp [mapOpt]
  | cons x xs ih =>
    intro pts h
    simp only [mapOpt] at h
    cases hx : specPoint x with
    | none => rw [hx] at h; simp at h
    | some p =>
      rw [hx] at h
      cases hxs : mapOpt specPoint xs with
      | none => rw [hxs] at h; simp at h
      | some ps =>
        rw [hxs] at h
        simp only [Option.some.injEq] at h
        subst h
        obtain ⟨c0, c1⟩ := specPoint_comps x p hx
        obtain ⟨r0, r1⟩ := ih ps hxs
        constructor
        · simp only [mapOpt, c0, r0, List.map_cons]
        · simp only [mapOpt, c1, r1, List.map_cons]

theorem specMultiOuter_shape (p : JsonVal) (ptsp : List (ℚ × ℚ))
    (h : specMultiOuter p = some ptsp) :
    ∃ r0 tail, p = JsonVal.arr (JsonVal.arr r0 :: tail) ∧
      mapOpt specPoint r0 = some ptsp := by
  cases p with
  | null => simp [specMultiOuter] at h
  | bool b => simp [specMultiOuter] at h
  | num q => simp [specMultiOuter] at h
  | str s => simp [specMultiOuter] at h
  | obj kvs => simp [specMultiOuter] at h
  | arr es =>
    cases es with
    | nil => simp [specMultiOuter] at h
    | cons e0 etail =>
      cases e0 with
      | null => simp [specMultiOuter] at h
      | bool b => simp [specMultiOuter] at h
      | num q => simp [specMultiOuter] at h
      | str s => simp [specMultiOuter] at h
      | obj kvs => simp [specMultiOuter] at h
      | arr r0 => exact ⟨r0, etail, rfl, h⟩

theorem outerRingList_cons (r0 : List JsonVal) (tail : List JsonVal) :
    outerRingList (JsonVal.arr (JsonVal.arr r0 :: tail)) = some r0 := by
  simp [outerRingList, subscript0]

theorem mapOpt_specMultiOuter_rings :
    ∀ (polys : List JsonVal) (ptss : List (List (ℚ × ℚ))),
      mapOpt specMultiOuter polys = some ptss →
      ∃ rings : List (List JsonVal), mapOpt outerRingList polys = some rings ∧
        mapOpt specPoint rings.flatten = some ptss.flatten ∧
        rings.flatten.length = ptss.flatten.length := by
  intro polys
  induction polys with
  | nil =>
    intro ptss h
    simp only [mapOpt, Option.some.injEq] at h
    subst h
    exact ⟨[], by simp [mapOpt], by simp [mapOpt], by simp⟩
  | cons p polys2 ih =>
    intro ptss h
    simp only [mapOpt] at h
    cases hx : specMultiOuter p with
    | none => rw [hx] at h; simp at h
    | some ptsp =>
      rw [hx] at h
      cases hxs : mapOpt specMultiOuter polys2 with
      | none => rw [hxs] at h; simp at h
      | some ptss2 =>
        rw [hxs] at h
        simp only [Option.some.injEq] at h
        subst h
        obtain ⟨rings2, hr2, hf2, hl2⟩ := ih ptss2 hxs
        obtain ⟨r0, tail, hp, hr0⟩ := specMultiOuter_shape p ptsp hx
        refine ⟨r0 :: rings2, ?_, ?_, ?_⟩
        · simp only [mapOpt, hp, outerRingList_cons, hr2]
        · simp only [List.flatten_cons]
          exact mapOpt_append specPoint r0 rings2.flatten ptsp ptss2.flatten hr0 hf2
        · simp only [List.flatten_cons, List.length_append, hl2]
          simp [mapOpt_length specPoint r0 ptsp hr0]

theorem centroidCheck_eval (ring0 : List JsonVal) (pts : List (ℚ × ℚ))
    (hmap : mapOpt specPoint ring0 = some pts) (hne : pts ≠ []) :
    centroidCheck ring0 =
      some (inTravisBounds ((pts.map Prod.fst).sum / (pts.length : ℚ))
        ((pts.map Prod.snd).sum / (pts.length : ℚ))) := by
  obtain ⟨c0, c1⟩ := mapOpt_specPoint_comps ring0 pts hmap
  have hlen := mapOpt_length specPoint ring0 pts hmap
  have hre : ring0.isEmpty = false := by
    cases ring0 with
    | nil =>
      simp only [mapOpt, Option.some.injEq] at hmap
      exact absurd hmap.symm hne
    | cons a as => simp
  simp only [centroidCheck, hre, c0, c1, hlen]
  simp

theorem is_in_travis_county_centroid (feature : JsonVal) (lng lat : ℚ)
    (h : specCentroid feature = some (lng, lat)) :
    is_in_travis_county feature = inTravisBounds lng lat := by
  cases hop : specOuterPoints feature with
  | none => simp [specCentroid, hop] at h
  | some pts =>
    simp only [specCentroid, hop] at h
    by_cases hne : pts = []
    · rw [if_pos hne] at h; simp at h
    · rw [if_neg hne] at h
      simp only [Option.some.injEq, Prod.mk.injEq] at h
      obtain ⟨hlng, hlat⟩ := h
      cases feature with
      | null => exact Option.noConfusion hop
      | bool b => exact Option.noConfusion hop
      | num q => exact Option.noConfusion hop
      | str s2 => exact Option.noConfusion hop
      | arr es => exact Option.noConfusion hop
      | obj kvs =>
        simp only [specOuterPoints] at hop
        cases hg : jlookup "geometry" kvs with
        | none => rw [hg] at hop; exact Option.noConfusion hop
        | some g =>
          rw [hg] at hop
          cases g with
          | null => exact Option.noConfusion hop
          | bool b => exact Option.noConfusion hop
          | num q => exact Option.noConfusion hop
          | str s2 => exact Option.noConfusion hop
          | arr gxs => exact Option.noConfusion hop
          | obj gkvs =>
            have hop1 : specOuterOfGeom gkvs = some pts := hop
            rw [specOuterOfGeom] at hop1
            cases hty : jlookup "type" gkvs with
            | none => rw [hty] at hop1; exact Option.noConfusion hop1
            | some t =>
              rw [hty] at hop1
              cases t with
              | null => exact Option.noConfusion hop1
              | bool b => exact Option.noConfusion hop1
              | num q => exact Option.noConfusion hop1
              | arr es2 => exact Option.noConfusion hop1
              | obj kvs2 => exact Option.noConfusion hop1
              | str ty =>
                cases hco : jlookup "coordinates" gkvs with
                | none => rw [hco] at hop1; exact Option.noConfusion hop1
                | some coords =>
                  rw [hco] at hop1
                  have hop2 : specOuterOfTyCoords ty coords = some pts := hop1
                  by_cases hPoly : ty = "Polygon"
                  · subst hPoly
                    cases coords with
                    | null => exact Option.noConfusion hop2
                    | bool b => exact Option.noConfusion hop2
                    | num q => exact Option.noConfusion hop2
                    | str s3 => exact Option.noConfusion hop2
                    | obj kvs3 => exact Option.noConfusion hop2
                    | arr es2 =>
                      cases es2 with
                      | nil => exact Option.noConfusion hop2
                      | cons e0 etail =>
                        cases e0 with
                        | null => exact Option.noConfusion hop2
                        | bool b => exact Option.noConfusion hop2
                        | num q => exact Option.noConfusion hop2
                        | str s3 => exact Option.noConfusion hop2
                        | obj kvs3 => exact Option.noConfusion hop2
                        | arr ring0 =>
                          have hop3 : mapOpt specPoint ring0 = some pts := hop2
                          have hbody : is_in_travis_county (JsonVal.obj kvs) =
                              (polygonBranch (JsonVal.arr (JsonVal.arr ring0 :: etail))).getD
                                false := by
                            simp [is_in_travis_county, isInTravisBody, hg, hco, hty]
                          rw [hbody]
                          have hsub : polygonBranch (JsonVal.arr (JsonVal.arr ring0 :: etail))
                              = centroidCheck ring0 := by
                            simp [polygonBranch, subscript0]
                          rw [hsub, centroidCheck_eval ring0 pts hop3 hne]
                          simp only [Option.getD_some]
                          rw [hlng, hlat]
                  · by_cases hMulti : ty = "MultiPolygon"
                    · subst hMulti
                      cases coords with
                      | null => exact Option.noConfusion hop2
                      | bool b => exact Option.noConfusion hop2
                      | num q => exact Option.noConfusion hop2
                      | str s3 => exact Option.noConfusion hop2
                      | obj kvs3 => exact Option.noConfusion hop2
                      | arr polys =>
                        have hop3 : (mapOpt specMultiOuter polys).map List.flatten
                            = some pts := hop2
                        rw [Option.map_eq_some'] at hop3
                        obtain ⟨ptss, hmm, hfl⟩ := hop3
                        obtain ⟨rings, hr, hf, hl⟩ :=
                          mapOpt_specMultiOuter_rings polys ptss hmm
                        rw [hfl] at hf
                        have hbody : is_in_travis_county (JsonVal.obj kvs) =
                            (multiPolygonBranch (JsonVal.arr polys)).getD false := by
                          simp [is_in_travis_county, isInTravisBody, hg, hco, hty]
                        rw [hbody]
                        have hsub : multiPolygonBranch (JsonVal.arr polys)
                            = centroidCheck rings.flatten := by
                          simp [multiPolygonBranch, hr]
                        rw [hsub, centroidCheck_eval rings.flatten pts hf hne]
                        simp only [Option.getD_some]
                        rw [hlng, hlat]
                    · have hnone : specOuterOfTyCoords ty coords = none := by
                        unfold specOuterOfTyCoords
                        rw [if_neg hPoly, if_neg hMulti]
                      rw [hnone] at hop2
                      exact Option.noConfusion hop2

/-! ## Further helper lemmas -/

theorem specOuterPoints_shape (feature : JsonVal) (pts : List (ℚ × ℚ))
    (h : specOuterPoints feature = some pts) :
    ∃ kvs gkvs, feature = JsonVal.obj kvs ∧
      jlookup "geometry" kvs = some (JsonVal.obj gkvs) ∧
      ((∃ ring0 etail, jlookup "type" gkvs = some (JsonVal.str "Polygon") ∧
          jlookup "coordinates" gkvs = some (JsonVal.arr (JsonVal.arr ring0 :: etail)) ∧
          mapOpt specPoint ring0 = some pts) ∨
       (∃ polys ptss, jlookup "type" gkvs = some (JsonVal.str "MultiPolygon") ∧
          jlookup "coordinates" gkvs = some (JsonVal.arr polys) ∧
          mapOpt specMultiOuter polys = some ptss ∧ ptss.flatten = pts)) := by
  cases feature with
  | null => exact Option.noConfusion h
  | bool b => exact Option.noConfusion h
  | num q => exact Option.noConfusion h
  | str s2 => exact Option.noConfusion h
  | arr es => exact Option.noConfusion h
  | obj kvs =>
    simp only [specOuterPoints] at h
    cases hg : jlookup "geometry" kvs with
    | none => rw [hg] at h; exact Option.noConfusion h
    | some g =>
      rw [hg] at h
      cases g with
      | null => exact Option.noConfusion h
      | bool b => exact Option.noConfusion h
      | num q => exact Option.noConfusion h
      | str s2 => exact Option.noConfusion h
      | arr gxs => exact Option.noConfusion h
      | obj gkvs =>
        refine ⟨kvs, gkvs, rfl, hg, ?_⟩
        have h1 : specOuterOfGeom gkvs = some pts := h
        rw [specOuterOfGeom] at h1
        cases hty : jlookup "type" gkvs with
        | none => rw [hty] at h1; exact Option.noConfusion h1
        | some t =>
          rw [hty] at h1
          cases t with
          | null => exact Option.noConfusion h1
          | bool b => exact Option.noConfusion h1
          | num q => exact Option.noConfusion h1
          | arr es2 => exact Option.noConfusion h1
          | obj kvs2 => exact Option.noConfusion h1
          | str ty =>
            cases hco : jlookup "coordinates" gkvs with
            | none => rw [hco] at h1; exact Option.noConfusion h1
            | some coords =>
              rw [hco] at h1
              have h2 : specOuterOfTyCoords ty coords = some pts := h1
              by_cases hPoly : ty = "Polygon"
              · subst hPoly
                cases coords with
                | null => exact Option.noConfusion h2
                | bool b => exact Option.noConfusion h2
                | num q => exact Option.noConfusion h2
                | str s3 => exact Option.noConfusion h2
                | obj kvs3 => exact Option.noConfusion h2
                | arr es2 =>
                  cases es2 with
                  | nil => exact Option.noConfusion h2
                  | cons e0 etail =>
                    cases e0 with
                    | null => exact Option.noConfusion h2
                    | bool b => exact Option.noConfusion h2
                    | num q => exact Option.noConfusion h2
                    | str s3 => exact Option.noConfusion h2
                    | obj kvs3 => exact Option.noConfusion h2
                    | arr ring0 => exact Or.inl ⟨ring0, etail, rfl, rfl, h2⟩
              · by_cases hMulti : ty = "MultiPolygon"
                · subst hMulti
                  cases coords with
                  | null => exact Option.noConfusion h2
                  | bool b => exact Option.noConfusion h2
                  | num q => exact Option.noConfusion h2
                  | str s3 => exact Option.noConfusion h2
                  | obj kvs3 => exact Option.noConfusion h2
                  | arr polys =>
                    have h3 : (mapOpt specMultiOuter polys).map List.flatten = some pts := h2
                    rw [Option.map_eq_some'] at h3
                    obtain ⟨ptss, hmm, hfl⟩ := h3
                    exact Or.inr ⟨polys, ptss, rfl, rfl, hmm, hfl⟩
                · have hnone : specOuterOfTyCoords ty coords = none := by
                    unfold specOuterOfTyCoords
                    rw [if_neg hPoly, if_neg hMulti]
                  rw [hnone] at h2
                  exact Option.noConfusion h2

theorem is_in_travis_county_emptyPoints (feature : JsonVal)
    (h : specOuterPoints feature = some []) :
    is_in_travis_county feature = false := by
  obtain ⟨kvs, gkvs, hfe, hg, hcase⟩ := specOuterPoints_shape feature [] h
  subst hfe
  rcases hcase with ⟨ring0, etail, hty, hco, hmap⟩ | ⟨polys, ptss, hty, hco, hmm, hfl⟩
  · have hr0 : ring0 = [] := by
      have hl := mapOpt_length specPoint ring0 [] hmap
      simpa using List.length_eq_zero.mp (by simpa using hl)
    subst hr0
    simp [is_in_travis_county, isInTravisBody, hg, hco, hty, polygonBranch, subscript0,
      centroidCheck]
  · obtain ⟨rings, hr, hf, hl⟩ := mapOpt_specMultiOuter_rings polys ptss hmm
    have hrl : rings.flatten = [] := by
      rw [hfl] at hl
      exact List.length_eq_zero.mp (by simpa using hl)
    simp [is_in_travis_county, isInTravisBody, hg, hco, hty, multiPolygonBranch, hr, hrl,
      centroidCheck]

theorem is_in_travis_county_otherType (kvs gkvs : List (String × JsonVal))
    (t c : JsonVal) (hg : jlookup "geometry" kvs = some (JsonVal.obj gkvs))
    (hc : jlookup "coordinates" gkvs = some c)
    (hty : jlookup "type" gkvs = some t)
    (hnp : ∀ s, t = JsonVal.str s → s ≠ "Polygon" ∧ s ≠ "MultiPolygon") :
    is_in_travis_county (JsonVal.obj kvs) = false := by
  cases t with
  | str s2 =>
    obtain ⟨hn1, hn2⟩ := hnp s2 rfl
    simp [is_in_travis_county, isInTravisBody, hg, hc, hty, hn1, hn2]
  | null => simp [is_in_travis_county, isInTravisBody, hg, hc, hty]
  | bool b => simp [is_in_travis_county, isInTravisBody, hg, hc, hty]
  | num q => simp [is_in_travis_county, isInTravisBody, hg, hc, hty]
  | arr es => simp [is_in_travis_county, isInTravisBody, hg, hc, hty]
  | obj kvs2 => simp [is_in_travis_county, isInTravisBody, hg, hc, hty]

/-- Strict interior of the Travis County bounding box. -/
def strictlyInside (lng lat : ℚ) : Prop :=
  TRAVIS_BOUNDS.south < lat ∧ lat < TRAVIS_BOUNDS.north ∧
  TRAVIS_BOUNDS.west < lng ∧ lng < TRAVIS_BOUNDS.east

/-- Strict exterior of the Travis County bounding box. -/
def strictlyOutside (lng lat : ℚ) : Prop :=
  lat < TRAVIS_BOUNDS.south ∨ TRAVIS_BOUNDS.north < lat ∨
  lng < TRAVIS_BOUNDS.west ∨ TRAVIS_BOUNDS.east < lng

theorem inTravisBounds_of_strict (lng lat : ℚ) (h : strictlyInside lng lat) :
    inTravisBounds lng lat = true := by
  obtain ⟨h1, h2, h3, h4⟩ := h
  simp only [inTravisBounds, decide_eq_true_eq]
  exact ⟨le_of_lt h1, le_of_lt h2, le_of_lt h3, le_of_lt h4⟩

theorem not_inTravisBounds_of_strict (lng lat : ℚ) (h : strictlyOutside lng lat) :
    inTravisBounds lng lat = false := by
  simp only [inTravisBounds, decide_eq_false_iff_not]
  rintro ⟨h1, h2, h3, h4⟩
  rcases h with h5 | h5 | h5 | h5 <;> linarith

theorem seekFeatures_none :
    ∀ ls : List String, (∀ l ∈ ls, hasFeaturesKey l = false) → seekFeatures ls = none := by
  intro ls
  induction ls with
  | nil => intro _; rfl
  | cons l ls2 ih =>
    intro h
    have hl : hasFeaturesKey l = false := h l (by simp)
    simp only [seekFeatures, hl, Bool.false_eq_true, if_neg, ite_false]
    exact ih fun x hx => h x (by simp [hx])

/-- Stripped form of a line that looks like one complete feature object but
whose text the decoder rejects. -/
def badLine (decode : String → Option JsonVal) (l : String) : Prop :=
  hasFeaturesKey (pyStrip l) = false ∧
  pyStartsWith (pyStrip l) "[" = false ∧
  pyStartsWith (pyStrip l) "]" = false ∧
  pyStartsWith (pyStrip l) "\x7b" = true ∧
  braceDelta (pyStrip l) = 0 ∧
  pyStrip l ≠ "" ∧
  decode (stripTrailingComma (pyStrip l)) = none

theorem step_badLine (decode : String → Option JsonVal) (m : Nat)
    (s : ScanState) (bad : String) (hb : badLine decode bad)
    (hin : s.in_features = true) :
    stepLine decode m s bad =
      ({ s with feature_buffer := stripTrailingComma (pyStrip bad),
                brace_count := braceDelta (pyStrip bad) }, false) := by
  rw [stepLine_newBuffer decode m s bad hb.1 hin hb.2.1 hb.2.2.1 hb.2.2.2.1]
  have h := completionStep_decodeFail decode m { s with feature_buffer := pyStrip bad, brace_count := braceDelta (pyStrip bad) } hb.2.2.2.2.1 hb.2.2.2.2.2.1 hb.2.2.2.2.2.2
  rw [h]

theorem scan_closeBracket (decode : String → Option JsonVal) (m : Nat)
    (s2 : ScanState) (hin : s2.in_features = true) :
    scanLines decode m s2 [closeBracketLine] = s2 := by
  have h := stepLine_closeBracket decode m s2 closeBracketLine (by decide) hin
    (by decide) (by decide)
  rw [scanLines_stop decode m s2 closeBracketLine [] (by rw [h]), h]

theorem scan_last_goodLine (decode : String → Option JsonVal) (m : Nat)
    (s : ScanState) (l : String) (v : JsonVal) (hg : goodLine decode l v)
    (hin : s.in_features = true) (hf : s.found_count < m) :
    (scanLines decode m s (l :: [closeBracketLine])).travis_buildings
      = s.travis_buildings ++ (if is_in_travis_county v then [v] else []) ∧
    (scanLines decode m s (l :: [closeBracketLine])).total_features
      = s.total_features + 1 ∧
    (scanLines decode m s (l :: [closeBracketLine])).found_count
      = s.found_count + (if is_in_travis_county v then 1 else 0) := by
  have hstep := stepLine_goodLine decode m s l v hg hin
  by_cases hv : is_in_travis_county v = true
  · by_cases hcap : m ≤ s.found_count + 1
    · have hc := completionStep_keepStop decode m { s with feature_buffer := pyStrip l, brace_count := braceDelta (pyStrip l) } v hg.2.2.2.2.1 hg.2.2.2.2.2.1 hg.2.2.2.2.2.2 hv hcap
      have hstepv := hstep.trans hc
      rw [scanLines_stop decode m s l _ (by rw [hstepv]), hstepv]
      simp [hv]
    · have hc := completionStep_keepGo decode m { s with feature_buffer := pyStrip l, brace_count := braceDelta (pyStrip l) } v hg.2.2.2.2.1 hg.2.2.2.2.2.1 hg.2.2.2.2.2.2 hv (show s.found_count + 1 < m by omega)
      have hstepv := hstep.trans hc
      have hstop : (stepLine decode m s l).2 = false := by rw [hstepv]
      have hcb := scan_closeBracket decode m (stepLine decode m s l).1 (by rw [hstepv]; exact hin)
      rw [scanLines_go decode m s l _ hstop, hcb, hstepv]
      simp [hv]
  · have hvf : is_in_travis_county v = false := by
      cases hx : is_in_travis_county v
      · rfl
      · exact absurd hx hv
    have hc := completionStep_reject decode m { s with feature_buffer := pyStrip l, brace_count := braceDelta (pyStrip l) } v hg.2.2.2.2.1 hg.2.2.2.2.2.1 hg.2.2.2.2.2.2 hvf
    have hstepv := hstep.trans hc
    have hstop : (stepLine decode m s l).2 = false := by rw [hstepv]
    have hcb := scan_closeBracket decode m (stepLine decode m s l).1 (by rw [hstepv]; exact hin)
    rw [scanLines_go decode m s l _ hstop, hcb, hstepv]
    simp [hvf]

/-! ## Concrete example data -/

/-- Polygon feature with a one-point outer ring strictly inside the box at
longitude -97.7, latitude 30.3. -/
def featureInside : JsonVal :=
  .obj [("type", .str "Feature"),
        ("geometry", .obj [("type", .str "Polygon"),
          ("coordinates", .arr [.arr [.arr [.num (-97.7), .num 30.3]]])])]

/-- Polygon feature with a one-point outer ring strictly outside the box:
longitude -95 lies east of the east bound. -/
def featureOutside : JsonVal :=
  .obj [("type", .str "Feature"),
        ("geometry", .obj [("type", .str "Polygon"),
          ("coordinates", .arr [.arr [.arr [.num (-95), .num 30.3]]])])]

/-- Text line carrying the inside feature, with a trailing comma. -/
def lineInside : String := "\x7b\"f\":\"A\"\x7d,"

/-- Text line carrying the outside feature, with a trailing comma. -/
def lineOutside : String := "\x7b\"f\":\"B\"\x7d,"

/-- Brace-balanced text line the decoder rejects. -/
def lineBad : String := "\x7b\"bad\"\x7d,"

/-- Example decoder standing in for `json.loads` on the example lines;
everything else is a decode error. -/
def decodeEx : String → Option JsonVal := fun s =>
  if s = "\x7b\"f\":\"A\"\x7d" then some featureInside
  else if s = "\x7b\"f\":\"B\"\x7d" then some featureOutside
  else none

/-- Trivial decoder that rejects everything. -/
def decodeNone : String → Option JsonVal := fun _ => none

theorem specCentroid_featureInside :
    specCentroid featureInside = some (-97.7, 30.3) := by
  simp [specCentroid, specOuterPoints, specOuterOfGeom, specOuterOfTyCoords, jlookup,
    featureInside, mapOpt, specPoint, jnumQ]

theorem specCentroid_featureOutside :
    specCentroid featureOutside = some (-95, 30.3) := by
  simp [specCentroid, specOuterPoints, specOuterOfGeom, specOuterOfTyCoords, jlookup,
    featureOutside, mapOpt, specPoint, jnumQ]

theorem strictlyInside_example : strictlyInside (-97.7) 30.3 := by
  refine ⟨?_, ?_, ?_, ?_⟩ <;> norm_num [TRAVIS_BOUNDS]

theorem strictlyOutside_example : strictlyOutside (-95) 30.3 := by
  refine Or.inr (Or.inr (Or.inr ?_))
  norm_num [TRAVIS_BOUNDS]

theorem featureInside_in : is_in_travis_county featureInside = true := by
  rw [is_in_travis_county_centroid featureInside (-97.7) 30.3 specCentroid_featureInside]
  exact inTravisBounds_of_strict (-97.7) 30.3 strictlyInside_example

theorem featureOutside_out : is_in_travis_county featureOutside = false := by
  rw [is_in_travis_county_centroid featureOutside (-95) 30.3 specCentroid_featureOutside]
  exact not_inTravisBounds_of_strict (-95) 30.3 strictlyOutside_example

theorem goodLine_lineInside : goodLine decodeEx lineInside featureInside :=
  ⟨by decide, by decide, by decide, by decide, by decide, by decide, rfl⟩

theorem goodLine_lineOutside : goodLine decodeEx lineOutside featureOutside :=
  ⟨by decide, by decide, by decide, by decide, by decide, by decide, rfl⟩

theorem badLine_lineBad : badLine decodeEx lineBad :=
  ⟨by decide, by decide, by decide, by decide, by decide, by decide, rfl⟩

/-! ## Claim theorems -/

/-- C5: for every mapping passed as a feature, `is_in_travis_county`
returns false rather than raising when the geometry key is absent, when the
geometry value is not a mapping, or when the coordinates key is absent; and
every internal failure of the checking body (modelled as `none`) is caught
locally and treated as not-in-region, never propagated to the caller. -/
theorem claim5_theorem :
    (∀ kvs, jlookup "geometry" kvs = none →
      is_in_travis_county (JsonVal.obj kvs) = false) ∧
    (∀ kvs g, jlookup "geometry" kvs = some g → (∀ gkvs, g ≠ JsonVal.obj gkvs) →
      is_in_travis_county (JsonVal.obj kvs) = false) ∧
    (∀ kvs gkvs, jlookup "geometry" kvs = some (JsonVal.obj gkvs) →
      jlookup "coordinates" gkvs = none →
      is_in_travis_county (JsonVal.obj kvs) = false) ∧
    (∀ v, isInTravisBody v = none → is_in_travis_county v = false) := by
  refine ⟨?_, ?_, ?_, ?_⟩
  · intro kvs h
    simp [is_in_travis_county, isInTravisBody, h]
  · intro kvs g hg hno
    cases g with
    | obj gkvs => exact absurd rfl (hno gkvs)
    | null => simp [is_in_travis_county, isInTravisBody, hg]
    | bool b => simp [is_in_travis_county, isInTravisBody, hg]
    | num q => simp [is_in_travis_county, isInTravisBody, hg]
    | str s2 =>
      cases hb : pyContains s2 "coordinates" <;>
        simp [is_in_travis_county, isInTravisBody, hg, hb]
    | arr gxs =>
      cases hb : jarrHasStr "coordinates" gxs <;>
        simp [is_in_travis_county, isInTravisBody, hg, hb]
  · intro kvs gkvs hg hco
    simp [is_in_travis_county, isInTravisBody, hg, hco]
  · intro v h
    simp [is_in_travis_county, h]

/-- Witness for C5 at concrete inputs: a feature without a geometry key, a
feature whose geometry is a bare number, and a feature whose body raises on
a non-numeric coordinate are all quietly rejected. -/
theorem claim5_witness :
    is_in_travis_county (JsonVal.obj []) = false ∧
    is_in_travis_county (JsonVal.obj [("geometry", JsonVal.num 7)]) = false ∧
    is_in_travis_county (JsonVal.obj [("geometry", JsonVal.obj
      [("type", JsonVal.str "Polygon"),
       ("coordinates", JsonVal.arr [JsonVal.arr [JsonVal.arr
         [JsonVal.str "x", JsonVal.num 30.3]]])])]) = false := by
  refine ⟨claim5_theorem.1 [] rfl, ?_, ?_⟩
  · exact claim5_theorem.2.1 [("geometry", JsonVal.num 7)] (JsonVal.num 7) rfl
      (fun gkvs h => JsonVal.noConfusion h)
  · exact claim5_theorem.2.2.2 _ rfl

/-- C6: for a well-formed feature the filter extracts the outer-ring point
set per geometry type, returns false for any other geometry type and for an
empty point set, and otherwise returns true exactly when the mean latitude
and longitude lie within the bounds, inclusively on all four sides. -/
theorem claim6_theorem :
    (∀ kvs gkvs t c, jlookup "geometry" kvs = some (JsonVal.obj gkvs) →
      jlookup "coordinates" gkvs = some c → jlookup "type" gkvs = some t →
      (∀ s, t = JsonVal.str s → s ≠ "Polygon" ∧ s ≠ "MultiPolygon") →
      is_in_travis_county (JsonVal.obj kvs) = false) ∧
    (∀ feature, specOuterPoints feature = some [] →
      is_in_travis_county feature = false) ∧
    (∀ feature lng lat, specCentroid feature = some (lng, lat) →
      (is_in_travis_county feature = true ↔
        (TRAVIS_BOUNDS.south ≤ lat ∧ lat ≤ TRAVIS_BOUNDS.north ∧
         TRAVIS_BOUNDS.west ≤ lng ∧ lng ≤ TRAVIS_BOUNDS.east))) := by
  refine ⟨?_, ?_, ?_⟩
  · intro kvs gkvs t c hg hc hty hnp
    exact is_in_travis_county_otherType kvs gkvs t c hg hc hty hnp
  · intro feature h
    exact is_in_travis_county_emptyPoints feature h
  · intro feature lng lat h
    rw [is_in_travis_county_centroid feature lng lat h]
    simp [inTravisBounds]

/-- Witness for C6 at concrete inputs: a LineString geometry is rejected,
an empty outer ring is rejected, and the example inside feature is accepted
because its centroid meets the inclusive bounds. -/
theorem claim6_witness :
    is_in_travis_county (JsonVal.obj [("geometry", JsonVal.obj
      [("type", JsonVal.str "LineString"),
       ("coordinates", JsonVal.arr [])])]) = false ∧
    is_in_travis_county (JsonVal.obj [("geometry", JsonVal.obj
      [("type", JsonVal.str "Polygon"),
       ("coordinates", JsonVal.arr [JsonVal.arr []])])]) = false ∧
    (is_in_travis_county featureInside = true ↔
      (TRAVIS_BOUNDS.south ≤ (30.3 : ℚ) ∧ (30.3 : ℚ) ≤ TRAVIS_BOUNDS.north ∧
       TRAVIS_BOUNDS.west ≤ (-97.7 : ℚ) ∧ (-97.7 : ℚ) ≤ TRAVIS_BOUNDS.east)) := by
  refine ⟨?_, ?_, ?_⟩
  · exact claim6_theorem.1 _ _ (JsonVal.str "LineString") (JsonVal.arr []) rfl rfl rfl
      (fun s hs => by
        cases hs
        exact ⟨by decide, by decide⟩)
  · exact claim6_theorem.2.1 _ (by simp [specOuterPoints, specOuterOfGeom,
      specOuterOfTyCoords, jlookup, mapOpt])
  · exact claim6_theorem.2.2 featureInside (-97.7) 30.3 specCentroid_featureInside

/-- C7: an empty input or a first line that does not begin with the
feature-collection tag yields the preamble format error, and a stream whose
lines never contain the features key yields the missing-features format
error; both outcomes are returns taken before any output document is
assembled. -/
theorem claim7_theorem (decode : String → Option JsonVal) (m : Nat) :
    process_texas_geojson decode [] m = ExtractResult.formatErrorPreamble ∧
    (∀ f rest, pyStartsWith (pyStrip f) preambleTag = false →
      process_texas_geojson decode (f :: rest) m = ExtractResult.formatErrorPreamble) ∧
    (∀ f rest, pyStartsWith (pyStrip f) preambleTag = true →
      (∀ l, l ∈ f :: rest → hasFeaturesKey l = false) →
      process_texas_geojson decode (f :: rest) m
        = ExtractResult.formatErrorNoFeatures) := by
  refine ⟨rfl, ?_, ?_⟩
  · intro f rest h
    simp [process_texas_geojson, h]
  · intro f rest hp hall
    have hseek : seekFeatures (f :: rest) = none := seekFeatures_none _ hall
    simp [process_texas_geojson, hp, hseek]

/-- Witness for C7 at concrete inputs: a JSON array file fails the preamble
check, and a collection header with no features key fails the seek. -/
theorem claim7_witness :
    process_texas_geojson decodeNone ["[1, 2]"] 5000
      = ExtractResult.formatErrorPreamble ∧
    process_texas_geojson decodeNone [preambleLine, "\"name\": \"x\""] 5000
      = ExtractResult.formatErrorNoFeatures := by
  constructor
  · exact (claim7_theorem decodeNone 5000).2.1 "[1, 2]" [] (by decide)
  · exact (claim7_theorem decodeNone 5000).2.2 preambleLine ["\"name\": \"x\""]
      (by decide) (by decide)

/-- C3: for every input the reported kept count never exceeds a positive
cap; any step that brings the kept counter up to the cap signals an
immediate break; and once a step signals a break the remaining lines of the
input are not read. -/
theorem claim3_theorem (decode : String → Option JsonVal) (lines : List String)
    (m : Nat) (hm : 0 < m) :
    found_count_of (process_texas_geojson decode lines m) ≤ m ∧
    (∀ s raw, s.found_count < m → m ≤ (stepLine decode m s raw).1.found_count →
      (stepLine decode m s raw).2 = true) ∧
    (∀ s raw rest, (stepLine decode m s raw).2 = true →
      scanLines decode m s (raw :: rest) = (stepLine decode m s raw).1) := by
  refine ⟨process_found_le decode lines m hm, ?_, ?_⟩
  · intro s raw hlt hge
    exact stepLine_cap_stop decode m s raw hlt hge
  · intro s raw rest h
    exact scanLines_stop decode m s raw rest h

/-- Witness for C3 at a concrete input with cap 1. -/
theorem claim3_witness :
    found_count_of (process_texas_geojson decodeEx
      (engagedLayoutInput [lineInside, lineInside]) 1) ≤ 1 :=
  (claim3_theorem decodeEx (engagedLayoutInput [lineInside, lineInside]) 1
    (by norm_num)).1

/-- C9 counterexample: a line that begins with an opening bracket but
carries further content is skipped with the buffer untouched, although the
claim says any line not beginning with an opening brace is appended to the
buffer; a line that begins with a closing bracket but carries further
content ends the scan, although the claim reserves that for a line that is
only a closing bracket; and a closing-bracket line containing the features
key neither ends the scan nor is appended, because the loop's features-key
recheck runs before any classification. -/
theorem claim9_counterexample :
    stepLine decodeNone 5 engagedState "[ 1," = (engagedState, false) ∧
    (stepLine decodeNone 5 engagedState "[ 1,").1.feature_buffer
      ≠ engagedState.feature_buffer ++ pyStrip "[ 1," ∧
    stepLine decodeNone 5 engagedState "]\x7d" = (engagedState, true) ∧
    stepLine decodeNone 5 engagedState "], \"features\": 0" = (engagedState, false) ∧
    (stepLine decodeNone 5 engagedState "], \"features\": 0").1.feature_buffer
      ≠ engagedState.feature_buffer ++ pyStrip "], \"features\": 0" := by
  exact ⟨rfl, by decide, rfl, rfl, by decide⟩

/-- C9 (amended): during Array-Scan, a line containing the features key is
consumed by the loop's flag recheck, which runs before any classification,
so such a line only re-sets the flag and is neither buffered nor able to
end the scan; among the remaining lines, one whose stripped form begins
with an opening bracket is skipped and one whose stripped form begins with
a closing bracket ends the scan, in each case regardless of further
content on the line, and any other line not beginning with an opening
brace is appended verbatim to the buffer with the brace counter updated by
its open-minus-close delta (stated away from the buffer-completion case,
which is a separate rule of the loop). -/
theorem claim9_theorem (decode : String → Option JsonVal) (m : Nat)
    (s : ScanState) (raw : String) (hin : s.in_features = true) :
    (hasFeaturesKey (pyStrip raw) = true →
      stepLine decode m s raw = ({ s with in_features := true }, false)) ∧
    (hasFeaturesKey (pyStrip raw) = false →
      pyStartsWith (pyStrip raw) "[" = true → stepLine decode m s raw = (s, false)) ∧
    (hasFeaturesKey (pyStrip raw) = false →
      pyStartsWith (pyStrip raw) "[" = false → pyStartsWith (pyStrip raw) "]" = true →
      stepLine decode m s raw = (s, true)) ∧
    (hasFeaturesKey (pyStrip raw) = false →
      pyStartsWith (pyStrip raw) "[" = false → pyStartsWith (pyStrip raw) "]" = false →
      pyStartsWith (pyStrip raw) "\x7b" = false →
      ¬(s.brace_count + braceDelta (pyStrip raw) = 0 ∧
        s.feature_buffer ++ pyStrip raw ≠ "") →
      stepLine decode m s raw =
        ({ s with feature_buffer := s.feature_buffer ++ pyStrip raw,
                  brace_count := s.brace_count + braceDelta (pyStrip raw) }, false)) := by
  refine ⟨?_, ?_, ?_, ?_⟩
  · intro h1
    exact stepLine_featuresLine decode m s raw h1
  · intro h1 h3
    exact stepLine_openBracket decode m s raw h1 hin h3
  · intro h1 h3 h4
    exact stepLine_closeBracket decode m s raw h1 hin h3 h4
  · intro h1 h3 h4 h5 h6
    rw [stepLine_appendBuffer decode m s raw h1 hin h3 h4 h5]
    exact completionStep_noFire decode m _ h6

/-- Witness for C9 at concrete inputs: a line holding the features key only
re-sets the flag, the bare opening bracket line is skipped, and a fragment
line is appended with its brace delta. -/
theorem claim9_witness :
    stepLine decodeNone 5 engagedState "\"features\"" = (engagedState, false) ∧
    stepLine decodeNone 5 engagedState "[" = (engagedState, false) ∧
    (stepLine decodeNone 5 engagedState "  \"a\": \x7b,").1.feature_buffer
      = "\"a\": \x7b," ∧
    (stepLine decodeNone 5 engagedState "  \"a\": \x7b,").1.brace_count = 1 := by
  have h := (claim9_theorem decodeNone 5 engagedState "  \"a\": \x7b,"
    rfl).2.2.2 (by decide) (by decide) (by decide) (by decide) (by decide)
  refine ⟨(claim9_theorem decodeNone 5 engagedState "\"features\"" rfl).1 (by decide),
    (claim9_theorem decodeNone 5 engagedState "[" rfl).2.1 (by decide) (by decide),
    ?_, ?_⟩
  · rw [h]
    decide
  · rw [h]
    decide

/-- C10 (implicit): after a decode failure on a completed buffer the buffer
is not cleared: it keeps the malformed text in the comma-stripped form the
source rebinds before calling the decoder, with the brace counter at zero;
a following line not beginning with an opening brace is appended to that
stale buffer; and the stale text is only discarded when a following line
beginning with an opening brace replaces the buffer. -/
theorem claim10_theorem (decode : String → Option JsonVal) (m : Nat)
    (s : ScanState) (bad t u : String) (hin : s.in_features = true)
    (hb : badLine decode bad)
    (ht1 : hasFeaturesKey (pyStrip t) = false)
    (ht2 : pyStartsWith (pyStrip t) "[" = false)
    (ht3 : pyStartsWith (pyStrip t) "]" = false)
    (ht4 : pyStartsWith (pyStrip t) "\x7b" = false)
    (ht5 : braceDelta (pyStrip t) ≠ 0)
    (hu1 : hasFeaturesKey (pyStrip u) = false)
    (hu2 : pyStartsWith (pyStrip u) "[" = false)
    (hu3 : pyStartsWith (pyStrip u) "]" = false)
    (hu4 : pyStartsWith (pyStrip u) "\x7b" = true)
    (hu5 : braceDelta (pyStrip u) ≠ 0) :
    stepLine decode m s bad =
      ({ s with feature_buffer := stripTrailingComma (pyStrip bad),
                brace_count := braceDelta (pyStrip bad) }, false) ∧
    stepLine decode m
        { s with feature_buffer := stripTrailingComma (pyStrip bad), brace_count := 0 } t =
      ({ s with feature_buffer := stripTrailingComma (pyStrip bad) ++ pyStrip t,
                brace_count := 0 + braceDelta (pyStrip t) }, false) ∧
    stepLine decode m
        { s with feature_buffer := stripTrailingComma (pyStrip bad), brace_count := 0 } u =
      ({ s with feature_buffer := pyStrip u,
                brace_count := braceDelta (pyStrip u) }, false) := by
  refine ⟨step_badLine decode m s bad hb hin, ?_, ?_⟩
  · rw [stepLine_appendBuffer decode m
      { s with feature_buffer := stripTrailingComma (pyStrip bad), brace_count := 0 } t
      ht1 hin ht2 ht3 ht4]
    exact completionStep_noFire decode m _
      (fun hand => ht5 (by simpa using hand.1))
  · rw [stepLine_newBuffer decode m
      { s with feature_buffer := stripTrailingComma (pyStrip bad), brace_count := 0 } u
      hu1 hin hu2 hu3 hu4]
    exact completionStep_noFire decode m _
      (fun hand => hu5 (by simpa using hand.1))

/-- Witness for C10 at concrete inputs: after its decode failure the bad
line's text persists in the buffer in comma-stripped form. -/
theorem claim10_witness :
    stepLine decodeEx 7 engagedState lineBad =
      ({ engagedState with feature_buffer := stripTrailingComma (pyStrip lineBad),
                           brace_count := braceDelta (pyStrip lineBad) }, false) ∧
    (stepLine decodeEx 7 engagedState lineBad).1.feature_buffer = "\x7b\"bad\"\x7d" := by
  have h := (claim10_theorem decodeEx 7 engagedState lineBad "\"x\": \x7b" "\x7b\"g\":" rfl
    badLine_lineBad (by decide) (by decide) (by decide) (by decide) (by decide)
    (by decide) (by decide) (by decide) (by decide) (by decide)).1
  refine ⟨h, ?_⟩
  rw [h]
  decide

/-- C8: a malformed feature line between two well-formed feature lines
causes only that line to be skipped: both neighbours are still decoded,
counted and filtered (and kept exactly when in-region), and the scan
continues to the end of the array instead of aborting. -/
theorem claim8_theorem (decode : String → Option JsonVal) (m : Nat)
    (g1 bad g2 : String) (v1 v2 : JsonVal)
    (h1 : goodLine decode g1 v1) (hb : badLine decode bad)
    (h2 : goodLine decode g2 v2) (hm : 2 ≤ m) :
    (scanLines decode m engagedState [g1, bad, g2, closeBracketLine]).travis_buildings
      = (if is_in_travis_county v1 then [v1] else [])
        ++ (if is_in_travis_county v2 then [v2] else []) ∧
    (scanLines decode m engagedState [g1, bad, g2, closeBracketLine]).total_features
      = 2 := by
  have hstep1 := stepLine_goodLine decode m engagedState g1 v1 h1 rfl
  by_cases hv1 : is_in_travis_county v1 = true
  · have hc1 := completionStep_keepGo decode m { engagedState with feature_buffer := pyStrip g1, brace_count := braceDelta (pyStrip g1) } v1 h1.2.2.2.2.1 h1.2.2.2.2.2.1 h1.2.2.2.2.2.2 hv1 (show (0 : Nat) + 1 < m by omega)
    have hstep1v := hstep1.trans hc1
    have hstop1 : (stepLine decode m engagedState g1).2 = false := by rw [hstep1v]
    rw [scanLines_go decode m engagedState g1 _ hstop1]
    have hA : (stepLine decode m engagedState g1).1
        = (⟨true, "", braceDelta (pyStrip g1), [v1], 1, 1⟩ : ScanState) := by
      rw [hstep1v]
      rfl
    rw [hA]
    have hstep2 := step_badLine decode m
      (⟨true, "", braceDelta (pyStrip g1), [v1], 1, 1⟩ : ScanState) bad hb rfl
    have hstop2 : (stepLine decode m
        (⟨true, "", braceDelta (pyStrip g1), [v1], 1, 1⟩ : ScanState) bad).2 = false := by
      rw [hstep2]
    rw [scanLines_go decode m _ bad _ hstop2]
    have hB : (stepLine decode m
        (⟨true, "", braceDelta (pyStrip g1), [v1], 1, 1⟩ : ScanState) bad).1
        = (⟨true, stripTrailingComma (pyStrip bad), braceDelta (pyStrip bad), [v1], 1, 1⟩ : ScanState) := by
      rw [hstep2]
    rw [hB]
    have hlast := scan_last_goodLine decode m
      (⟨true, stripTrailingComma (pyStrip bad), braceDelta (pyStrip bad), [v1], 1, 1⟩ : ScanState) g2 v2 h2
      rfl (show (1 : Nat) < m by omega)
    refine ⟨?_, ?_⟩
    · rw [hlast.1]
      simp [hv1]
    · rw [hlast.2.1]
  · have hv1f : is_in_travis_county v1 = false := by
      cases hx : is_in_travis_county v1
      · rfl
      · exact absurd hx hv1
    have hc1 := completionStep_reject decode m { engagedState with feature_buffer := pyStrip g1, brace_count := braceDelta (pyStrip g1) } v1 h1.2.2.2.2.1 h1.2.2.2.2.2.1 h1.2.2.2.2.2.2 hv1f
    have hstep1v := hstep1.trans hc1
    have hstop1 : (stepLine decode m engagedState g1).2 = false := by rw [hstep1v]
    rw [scanLines_go decode m engagedState g1 _ hstop1]
    have hA : (stepLine decode m engagedState g1).1
        = (⟨true, "", braceDelta (pyStrip g1), [], 1, 0⟩ : ScanState) := by
      rw [hstep1v]
      rfl
    rw [hA]
    have hstep2 := step_badLine decode m
      (⟨true, "", braceDelta (pyStrip g1), [], 1, 0⟩ : ScanState) bad hb rfl
    have hstop2 : (stepLine decode m
        (⟨true, "", braceDelta (pyStrip g1), [], 1, 0⟩ : ScanState) bad).2 = false := by
      rw [hstep2]
    rw [scanLines_go decode m _ bad _ hstop2]
    have hB : (stepLine decode m
        (⟨true, "", braceDelta (pyStrip g1), [], 1, 0⟩ : ScanState) bad).1
        = (⟨true, stripTrailingComma (pyStrip bad), braceDelta (pyStrip bad), [], 1, 0⟩ : ScanState) := by
      rw [hstep2]
    rw [hB]
    have hlast := scan_last_goodLine decode m
      (⟨true, stripTrailingComma (pyStrip bad), braceDelta (pyStrip bad), [], 1, 0⟩ : ScanState) g2 v2 h2
      rfl (show (0 : Nat) < m by omega)
    refine ⟨?_, ?_⟩
    · rw [hlast.1]
      simp [hv1f]
    · rw [hlast.2.1]

/-- Witness for C8 at concrete inputs: the bad line between the two example
features is skipped while both neighbours are decoded and counted. -/
theorem claim8_witness :
    (scanLines decodeEx 5 engagedState
      [lineInside, lineBad, lineOutside, closeBracketLine]).total_features = 2 :=
  (claim8_theorem decodeEx 5 lineInside lineBad lineOutside featureInside
    featureOutside goodLine_lineInside badLine_lineBad goodLine_lineOutside
    (by norm_num)).2

/-- C2 (code evaluation at the failing input): on an input in the
documented multi-line layout, the run processes zero features for every
decoder and every cap. After the seek loop consumes the only line holding
the features key, the loop's `in_features` flag is still false and no later
line contains the key, so the Array-Scan branch never executes on any
subsequent line, contrary to the claimed hand-off from Seek-Features to
Array-Scan. -/
theorem claim2_theorem (decode : String → Option JsonVal) (m : Nat) :
    process_texas_geojson decode (docLayoutInput [lineInside]) m
      = ExtractResult.noOutput 0 := by
  rfl

/-- C1 counterexample: a documented-layout input holding one feature whose
outer-ring centroid is strictly inside the bounding box, with cap 5000,
yields no output at all, so the strictly-inside feature is not included in
the extractor's output. -/
theorem claim1_counterexample :
    decodeEx (stripTrailingComma (pyStrip lineInside)) = some featureInside ∧
    specCentroid featureInside = some (-97.7, 30.3) ∧
    strictlyInside (-97.7) 30.3 ∧
    process_texas_geojson decodeEx (docLayoutInput [lineInside]) 5000
      = ExtractResult.noOutput 0 :=
  ⟨rfl, specCentroid_featureInside, strictlyInside_example, rfl⟩

/-- C1 (amended): on inputs where the features key appears again on a line
after the one the seek loop consumes - the only inputs on which the code's
scan engages - every decoded feature whose outer-ring centroid falls
strictly inside the fixed bounding box passes the filter, every one whose
centroid falls strictly outside fails it, and the run's output is exactly
the in-region features in input order truncated at the cap. -/
theorem claim1_theorem (decode : String → Option JsonVal) (m : Nat)
    (fts : List String) (vals : List JsonVal) (hm : 0 < m)
    (hfv : List.Forall₂ (goodLine decode) fts vals) :
    (∀ v lng lat, v ∈ vals → specCentroid v = some (lng, lat) →
      strictlyInside lng lat → is_in_travis_county v = true) ∧
    (∀ v lng lat, v ∈ vals → specCentroid v = some (lng, lat) →
      strictlyOutside lng lat → is_in_travis_county v = false) ∧
    ((vals.filter is_in_travis_county).take m = [] →
      ∃ t, process_texas_geojson decode (engagedLayoutInput fts) m =
        ExtractResult.noOutput t) ∧
    ((vals.filter is_in_travis_county).take m ≠ [] →
      ∃ t, process_texas_geojson decode (engagedLayoutInput fts) m =
        ExtractResult.success t ((vals.filter is_in_travis_county).take m).length
          (outputGeojson ((vals.filter is_in_travis_county).take m))) := by
  refine ⟨?_, ?_, (process_engagedLayout decode m fts vals hm hfv).1,
    (process_engagedLayout decode m fts vals hm hfv).2⟩
  · intro v lng lat _ hc hs
    rw [is_in_travis_county_centroid v lng lat hc]
    exact inTravisBounds_of_strict lng lat hs
  · intro v lng lat _ hc hs
    rw [is_in_travis_county_centroid v lng lat hc]
    exact not_inTravisBounds_of_strict lng lat hs

/-- Witness for C1 at concrete inputs: the strictly-inside example feature
passes the filter, the strictly-outside one fails it, and an engaged-layout
run keeps exactly the inside feature. -/
theorem claim1_witness :
    is_in_travis_county featureInside = true ∧
    is_in_travis_county featureOutside = false ∧
    ∃ t, process_texas_geojson decodeEx
        (engagedLayoutInput [lineInside, lineOutside]) 5000
      = ExtractResult.success t 1 (outputGeojson [featureInside]) := by
  have hfv : List.Forall₂ (goodLine decodeEx) [lineInside, lineOutside]
      [featureInside, featureOutside] :=
    List.Forall₂.cons goodLine_lineInside
      (List.Forall₂.cons goodLine_lineOutside List.Forall₂.nil)
  have hthm := claim1_theorem decodeEx 5000 [lineInside, lineOutside]
    [featureInside, featureOutside] (by norm_num) hfv
  have hfil : (([featureInside, featureOutside].filter is_in_travis_county).take 5000)
      = [featureInside] := by
    simp [List.filter_cons, featureInside_in, featureOutside_out]
  refine ⟨?_, ?_, ?_⟩
  · exact hthm.1 featureInside (-97.7) 30.3 (by simp) specCentroid_featureInside
      strictlyInside_example
  · exact hthm.2.1 featureOutside (-95) 30.3 (by simp) specCentroid_featureOutside
      strictlyOutside_example
  · have h := hthm.2.2.2 (by rw [hfil]; exact List.cons_ne_nil featureInside [])
    rw [hfil] at h
    exact h

/-- C4: the output document wraps exactly the in-region subsequence of the
input's decoded features truncated at the cap: that sequence is an
order-preserving sublist of the in-region features and of the input's
features (each kept feature passed through unmodified), its length is at
most the cap, decoding the assembled document gives the FeatureCollection
tag and that exact features array, and a successful engaged run returns
that document. -/
theorem claim4_theorem (decode : String → Option JsonVal) (m : Nat)
    (fts : List String) (vals : List JsonVal) (hm : 0 < m)
    (hfv : List.Forall₂ (goodLine decode) fts vals) :
    ((vals.filter is_in_travis_county).take m).Sublist
      (vals.filter is_in_travis_county) ∧
    ((vals.filter is_in_travis_county).take m).Sublist vals ∧
    ((vals.filter is_in_travis_county).take m).length ≤ m ∧
    (∃ fields, outputGeojson ((vals.filter is_in_travis_county).take m)
        = JsonVal.obj fields ∧
      jlookup "type" fields = some (JsonVal.str "FeatureCollection") ∧
      jlookup "features" fields
        = some (JsonVal.arr ((vals.filter is_in_travis_county).take m))) ∧
    ((vals.filter is_in_travis_county).take m ≠ [] →
      ∃ t, process_texas_geojson decode (engagedLayoutInput fts) m =
        ExtractResult.success t ((vals.filter is_in_travis_county).take m).length
          (outputGeojson ((vals.filter is_in_travis_county).take m))) := by
  refine ⟨List.take_sublist m _, ?_, List.length_take_le m _, ?_,
    (process_engagedLayout decode m fts vals hm hfv).2⟩
  · exact (List.take_sublist m _).trans (List.filter_sublist vals)
  · refine ⟨[("type", JsonVal.str "FeatureCollection"),
      ("features", JsonVal.arr ((vals.filter is_in_travis_county).take m))],
      rfl, ?_, ?_⟩
    · simp [jlookup]
    · simp [jlookup]

/-- Witness for C4 at concrete inputs. -/
theorem claim4_witness :
    (([featureInside, featureOutside].filter is_in_travis_county).take 3).Sublist
      [featureInside, featureOutside] :=
  (claim4_theorem decodeEx 3 [lineInside, lineOutside]
    [featureInside, featureOutside] (by norm_num)
    (List.Forall₂.cons goodLine_lineInside
      (List.Forall₂.cons goodLine_lineOutside List.Forall₂.nil))).2.1
